import Mathlib

/-!
Verification of the message-relay backend (`src/backend/main.py`,
`src/backend/models.py`) against its natural-language specification.

The Python source is shallowly embedded: each component of the backend
becomes a Lean definition over explicit state.

* `MessageProcessor` (the message gateway): `addMessage` embeds
  `MessageProcessor.add_message` (main.py lines 124-136), `persistCycle`
  embeds one iteration of `MessageProcessor.process_messages` (lines
  101-122), and `persistAll` iterates the cycle until the queue is empty.
* `ConnectionManager` (the connection registry): `connectOp` and
  `disconnectOp` embed `ConnectionManager.connect` / `.disconnect`
  (lines 55-78); a step relation `Step` models the interleaving of
  registry operations, transport closes, and garbage collection of
  sessions that are no longer referenced.
* The websocket endpoint (lines 202-284): `receiveStep` embeds one
  iteration of the receive loop, `endpointConnectPhase` embeds the
  connection phase (registry connect followed by the user-existence
  check).
* The history endpoint: `getMessages` embeds `get_messages`
  (lines 183-199), including the Python truthiness test `if before_id:`.

Wall-clock instants are natural numbers counting seconds
(`timedelta(minutes=1)` becomes `60`).  Storage-assigned ids are natural
numbers drawn from a counter, matching the PostgreSQL primary-key
sequence.  Sessions are identified by numeric handles; the registry's
weak references are modelled by an explicit `alive` predicate (true while
the garbage collector has not collected the session object) next to an
`isOpen` predicate (true while the websocket has not been closed).
-/

namespace Backend

/-- Embeds `MessageTask` (main.py lines 87-92): the unit of work placed
on the gateway's queue.  The `websocket` field holds the originating
session's numeric handle. -/
structure MessageTask where
  user_id : Nat
  content : String
  timestamp : Nat
  websocket : Nat
deriving DecidableEq, Repr

/-- A durably stored `message` row (models.py lines 23-46): the id is
assigned by the storage layer. -/
structure StoredMsg where
  id : Nat
  user_id : Nat
  content : String
  is_from_user : Bool
  timestamp : Nat
deriving DecidableEq, Repr

/-- The storage sink: the `message` table plus the id sequence that
assigns primary keys on insert. -/
structure Storage where
  nextId : Nat
  rows : List StoredMsg
deriving DecidableEq, Repr

/-- Embeds the mutable state of `MessageProcessor` (main.py lines
95-99): the bounded asyncio queue, the per-user counters `rate_limits`
(a `defaultdict(int)`, modelled as a total function defaulting to 0),
and `last_cleanup`, the start of the current rate window. -/
structure ProcState where
  queue : List MessageTask
  rate_limits : Nat → Nat
  last_cleanup : Nat

/-- The freshly constructed `MessageProcessor()`: empty queue, all
counters zero, window started at construction time `t0`. -/
def ProcState.init (t0 : Nat) : ProcState :=
  { queue := [], rate_limits := fun _ => 0, last_cleanup := t0 }

/-- Embeds the window-expiry check at the head of `add_message` (main.py
lines 126-129): if strictly more than one minute has passed since
`last_cleanup`, clear every user's counter and restart the window. -/
def windowStep (s : ProcState) (now : Nat) : ProcState :=
  if 60 < now - s.last_cleanup then
    { s with rate_limits := fun _ => 0, last_cleanup := now }
  else s

/-- Embeds `MessageProcessor.add_message` (main.py lines 124-136).
`now` is the value of `datetime.now()` at the head of the call.  Returns
the boolean result with the updated processor state; `true` means the
task was enqueued (`await self.queue.put(task)` always completes,
blocking on a full queue rather than dropping). -/
def addMessage (s : ProcState) (task : MessageTask) (now : Nat) : Bool × ProcState :=
  let s := windowStep s now
  if 100 < s.rate_limits task.user_id then
    (false, s)
  else
    (true,
      { s with
        rate_limits := Function.update s.rate_limits task.user_id
          (s.rate_limits task.user_id + 1)
        queue := s.queue ++ [task] })

/-- `n` successive `add_message` calls from user 1 on a fresh processor,
all at time 0 (inside one rate window). -/
def acceptRun : Nat → ProcState
  | 0 => ProcState.init 0
  | n + 1 => (addMessage (acceptRun n) ⟨1, "x", 0, 0⟩ 0).2

/-- The row the batch persister builds from a queued task (main.py lines
114-121): `is_from_user=True`, content and timestamp copied from the
task, id assigned by storage on commit. -/
def taskToRow (id : Nat) (t : MessageTask) : StoredMsg :=
  ⟨id, t.user_id, t.content, true, t.timestamp⟩

/-- One committed multi-record write (`session.add_all` + `commit`,
main.py lines 113-122): each record receives the next id from the
storage sequence. -/
def appendRows (store : Storage) (batch : List MessageTask) : Storage :=
  match batch with
  | [] => store
  | t :: ts => appendRows ⟨store.nextId + 1, store.rows ++ [taskToRow store.nextId t]⟩ ts

/-- Observable outcome of one iteration of the batch-persister loop:
the storage after the cycle, the remaining queue, the list of batch
writes issued this cycle, and whether the loop suspended
(`asyncio.sleep(0.01)`). -/
structure CycleResult where
  store : Storage
  queue : List MessageTask
  writes : List (List MessageTask)
  slept : Bool
deriving Repr

/-- Embeds one iteration of `MessageProcessor.process_messages` (main.py
lines 101-122): drain up to 10 tasks with `get_nowait` (a non-blocking
FIFO drain), then either sleep (empty drain, lines 108-111) or issue one
multi-record write for the whole batch (lines 113-122). -/
def persistCycle (store : Storage) (queue : List MessageTask) : CycleResult :=
  let batch := queue.take 10
  if batch.isEmpty then ⟨store, queue, [], true⟩
  else ⟨appendRows store batch, queue.drop 10, [batch], false⟩

/-- Iterates `persistCycle` until the queue is drained: the storage
contents once the background persister has caught up. -/
def persistAll (store : Storage) (queue : List MessageTask) : Storage :=
  match queue with
  | [] => store
  | t :: ts => persistAll (appendRows store ((t :: ts).take 10)) ((t :: ts).drop 10)
termination_by queue.length
decreasing_by simp; omega

/-- The fixed canned replies (`test_responses`, main.py lines 251-262). -/
def test_responses : List String :=
  ["That's interesting! Tell me more.",
   "I understand. How does that make you feel?",
   "Thanks for sharing that with me.",
   "I'm here to listen. What else is on your mind?",
   "That's a good point. I hadn't thought of it that way.",
   "I appreciate your perspective on this.",
   "Let me think about that for a moment...",
   "I'm not sure I follow. Could you elaborate?",
   "That's fascinating! I'd like to hear more about that.",
   "I see what you mean. That makes sense."]

/-- An outbound websocket frame: either a persisted-message JSON object
(main.py lines 243-249 and 269-275) or the rate-limit error object
(lines 231-233). -/
inductive OutFrame where
  | msg (m : StoredMsg)
  | err (e : String)
deriving DecidableEq, Repr

/-- Observable outcome of one iteration of the endpoint's receive loop:
updated processor state, updated storage, the frames sent to the
originating session, and whether the loop continues. -/
structure StepResult where
  proc : ProcState
  store : Storage
  frames : List OutFrame
  continueLoop : Bool

/-- Embeds one iteration of the receive loop of `websocket_endpoint`
(main.py lines 217-281) for a received text frame `data`.  On rejection
the error frame is sent and the loop continues (lines 230-234).  On
acceptance the user message is persisted synchronously (flush assigns
`store.nextId`), a canned reply is chosen (`random.choice`, modelled by
the index `rnd % 10`), the reply is persisted (next id), and both frames
are sent, user message first (lines 236-281). -/
def receiveStep (proc : ProcState) (store : Storage) (uid : Nat) (data : String)
    (now : Nat) (ws : Nat) (rnd : Nat) : StepResult :=
  let res := addMessage proc ⟨uid, data, now, ws⟩ now
  if res.1 = false then
    ⟨res.2, store, [.err "Rate limit exceeded"], true⟩
  else
    let userMsg : StoredMsg := ⟨store.nextId, uid, data, true, now⟩
    let reply := test_responses.getD (rnd % 10) ""
    let assistantMsg : StoredMsg := ⟨store.nextId + 1, uid, reply, false, now⟩
    ⟨res.2, ⟨store.nextId + 2, store.rows ++ [userMsg, assistantMsg]⟩,
      [.msg userMsg, .msg assistantMsg], true⟩

/-- Modelled from the spec: the storage sink's column constraint.  The
repository's `models.py` (line 28) declares
`content: Mapped[str] = mapped_column(String(500))`, and the enforcing
behavior lives in PostgreSQL, outside `src/`: an INSERT whose content
exceeds 500 characters is rejected with an error and nothing is stored;
the value is never truncated (spec section 6: "the 500-character storage
limit"). -/
def storageAppend (store : Storage) (recs : List StoredMsg) : Option Storage :=
  if recs.all (fun r => r.content.length ≤ 500) then
    some ⟨store.nextId, store.rows ++ recs⟩
  else none

/-- A 501-character message body, one character over the storage limit. -/
def longContent : String := String.mk (List.replicate 501 'a')

/-- State of the connection registry together with the ambient session
facts it depends on: `conns` embeds `ConnectionManager._connections`
(the per-user sets of weak references, main.py line 52); `isOpen ws`
records whether session `ws` is still open (not closed); `alive ws`
records whether the session object is still referenced (a weak
reference to it still resolves). -/
structure World where
  conns : Nat → List Nat
  isOpen : Nat → Bool
  alive : Nat → Bool

/-- The per-user session list after `connect` adds the new weak
reference and prunes dead ones (main.py lines 59-65): insert `ws`
(a set add), then keep exactly the references whose referent is alive —
the just-accepted `ws` is referenced by its handler, hence alive. -/
def pruned (w : World) (ws uid : Nat) : List Nat :=
  ((w.conns uid).insert ws).filter (Function.update w.alive ws true)

/-- Embeds `ConnectionManager.connect` (main.py lines 55-71): accept the
websocket (it becomes open and referenced), add its reference under
`user_id`, prune dead references, and if more than 5 live references
remain, close the new websocket with code 1008 and return `False`;
otherwise return `True`.  Result: the new world, the boolean result, and
the close code issued to the new websocket, if any. -/
def connectOp (w : World) (ws uid : Nat) : World × Bool × Option Nat :=
  if 5 < (pruned w ws uid).length then
    (⟨Function.update w.conns uid (pruned w ws uid),
      Function.update (Function.update w.isOpen ws true) ws false,
      Function.update w.alive ws true⟩, false, some 1008)
  else
    (⟨Function.update w.conns uid (pruned w ws uid),
      Function.update w.isOpen ws true,
      Function.update w.alive ws true⟩, true, none)

/-- Embeds `ConnectionManager.disconnect` (main.py lines 73-78): keep
each reference whose referent `is not` the given websocket — dead
references (referent `None`) are kept, matching the source. -/
def disconnectOp (w : World) (ws uid : Nat) : World :=
  ⟨Function.update w.conns uid
      ((w.conns uid).filter (fun r => !(r == ws && w.alive r))),
    w.isOpen, w.alive⟩

/-- The given websocket is closed (client disconnect, transport failure,
or an explicit `close` outside the registry); the registry is not
touched. -/
def closeWs (w : World) (ws : Nat) : World :=
  ⟨w.conns, Function.update w.isOpen ws false, w.alive⟩

/-- The garbage collector collects the session object, so weak
references to it stop resolving.  Only a session that is no longer open
(its handler has returned) can be collected. -/
def gcWs (w : World) (ws : Nat) : World :=
  ⟨w.conns, w.isOpen, Function.update w.alive ws false⟩

/-- The freshly constructed `ConnectionManager()`: no registered
sessions, nothing open, nothing referenced. -/
def World.init : World := ⟨fun _ => [], fun _ => false, fun _ => false⟩

/-- The registered sessions of `uid` that are still open. -/
def openRegistered (w : World) (uid : Nat) : List Nat :=
  (w.conns uid).filter w.isOpen

/-- The registry invariant: every user has at most 5 open registered
sessions, and every open registered session is still referenced. -/
def Inv (w : World) : Prop :=
  (∀ uid, (openRegistered w uid).length ≤ 5) ∧
  (∀ uid s, s ∈ w.conns uid → w.isOpen s = true → w.alive s = true)

/-- The events that touch the registry state: a connect of a fresh
session handle, a disconnect, an external close of a session, and
garbage collection of a closed session. -/
inductive Step : World → World → Prop
  | connect (w : World) (ws uid : Nat) (hfresh : ∀ u, ws ∉ w.conns u) :
      Step w (connectOp w ws uid).1
  | disconnect (w : World) (ws uid : Nat) : Step w (disconnectOp w ws uid)
  | closeTransport (w : World) (ws : Nat) : Step w (closeWs w ws)
  | gcCollect (w : World) (ws : Nat) (hdead : w.isOpen ws = false) :
      Step w (gcWs w ws)

/-- Worlds reachable from the freshly constructed registry. -/
def Reachable (w : World) : Prop := Relation.ReflTransGen Step World.init w

/-- Embeds the connection phase of `websocket_endpoint` (main.py lines
202-214): `manager.connect` runs first (accepting and registering the
websocket); only afterwards is the user looked up, and an unknown user
gets `close(code=1008)` and an early return — `manager.disconnect` is
not called on that path. -/
def endpointConnectPhase (w : World) (ws uid : Nat) (userExists : Bool) :
    World × Bool × Option Nat :=
  let r := connectOp w ws uid
  if r.2.1 = false then (r.1, false, r.2.2)
  else if userExists = false then (closeWs r.1 ws, false, some 1008)
  else (r.1, true, none)

/-- The descending-id comparison used by
`query.order_by(desc(Message.id))` (main.py line 195). -/
def msgGE (a b : StoredMsg) : Prop := b.id ≤ a.id

instance : DecidableRel msgGE := fun a b => Nat.decLe b.id a.id

instance : IsTotal StoredMsg msgGE := ⟨fun a b => Nat.le_total b.id a.id⟩

instance : IsTrans StoredMsg msgGE := ⟨fun _ _ _ hab hbc => le_trans hbc hab⟩

/-- Embeds `get_messages` (main.py lines 183-199): filter the `message`
table by `user_id`; if `before_id` is truthy (present and nonzero —
Python's `if before_id:` treats 0 as absent) restrict to ids strictly
below it; order by descending id, take `limit` rows, and return them
reversed (oldest first). -/
def getMessages (store : Storage) (uid : Nat) (before_id : Option Int) (limit : Nat) :
    List StoredMsg :=
  let q1 := store.rows.filter (fun m => m.user_id == uid)
  let q2 := match before_id with
    | none => q1
    | some b => if b = 0 then q1 else q1.filter (fun m => decide ((m.id : Int) < b))
  ((q2.insertionSort msgGE).take limit).reverse

/-- The row-selection predicate `get_messages` effectively applies
before sorting: owned by `uid`, and below the bound when a nonzero
bound was supplied. -/
def eligible (uid : Nat) (before_id : Option Int) (m : StoredMsg) : Bool :=
  (m.user_id == uid) &&
    (match before_id with
     | none => true
     | some b => (b == 0) || decide ((m.id : Int) < b))


/-! Helper lemmas about the gateway, the persister, and the registry. -/

theorem windowStep_queue (s : ProcState) (now : Nat) : (windowStep s now).queue = s.queue := by
  unfold windowStep
  split <;> rfl

theorem addMessage_queue_accept (s : ProcState) (t : MessageTask) (now : Nat)
    (h : (addMessage s t now).1 = true) :
    (addMessage s t now).2.queue = s.queue ++ [t] := by
  simp only [addMessage] at h ⊢
  split at h
  case isTrue hc => simp at h
  case isFalse hc =>
    rw [if_neg hc]
    simp [windowStep_queue]

theorem addMessage_queue_reject (s : ProcState) (t : MessageTask) (now : Nat)
    (h : (addMessage s t now).1 = false) :
    (addMessage s t now).2.queue = s.queue := by
  simp only [addMessage] at h ⊢
  split at h
  case isTrue hc =>
    rw [if_pos hc]
    exact windowStep_queue s now
  case isFalse hc => simp at h

theorem appendRows_mem_mono (batch : List MessageTask) (store : Storage) (r : StoredMsg)
    (h : r ∈ store.rows) : r ∈ (appendRows store batch).rows := by
  induction batch generalizing store with
  | nil => simpa [appendRows] using h
  | cons t ts ih =>
    exact ih _ (by simp [h])

theorem appendRows_nextId_le (batch : List MessageTask) (store : Storage) :
    store.nextId ≤ (appendRows store batch).nextId := by
  induction batch generalizing store with
  | nil => simp [appendRows]
  | cons t ts ih =>
    show store.nextId ≤ (appendRows ⟨store.nextId + 1, store.rows ++ [taskToRow store.nextId t]⟩ ts).nextId
    exact le_trans (Nat.le_succ _) (ih ⟨store.nextId + 1, store.rows ++ [taskToRow store.nextId t]⟩)

theorem appendRows_mem_of_mem (batch : List MessageTask) (store : Storage) (t : MessageTask)
    (h : t ∈ batch) :
    ∃ r ∈ (appendRows store batch).rows,
      r.user_id = t.user_id ∧ r.content = t.content ∧ r.is_from_user = true ∧
      store.nextId ≤ r.id := by
  induction batch generalizing store with
  | nil => simp at h
  | cons b bs ih =>
    rcases List.mem_cons.mp h with rfl | h
    · refine ⟨taskToRow store.nextId t, ?_, by simp [taskToRow], by simp [taskToRow],
        by simp [taskToRow], by simp [taskToRow]⟩
      exact appendRows_mem_mono bs _ _ (by simp)
    · obtain ⟨r, hr, h1, h2, h3, h4⟩ := ih (⟨store.nextId + 1, store.rows ++ [taskToRow store.nextId b]⟩ : Storage) h
      exact ⟨r, hr, h1, h2, h3, le_trans (Nat.le_succ _) h4⟩

theorem persistAll_mem_mono (queue : List MessageTask) (store : Storage) (r : StoredMsg)
    (h : r ∈ store.rows) : r ∈ (persistAll store queue).rows := by
  induction store, queue using persistAll.induct with
  | case1 store => simpa [persistAll] using h
  | case2 store t ts ih =>
    rw [persistAll]
    exact ih (appendRows_mem_mono _ _ _ h)

theorem persistAll_mem_of_mem (queue : List MessageTask) (store : Storage) (t : MessageTask)
    (h : t ∈ queue) :
    ∃ r ∈ (persistAll store queue).rows,
      r.user_id = t.user_id ∧ r.content = t.content ∧ r.is_from_user = true ∧
      store.nextId ≤ r.id := by
  induction store, queue using persistAll.induct with
  | case1 store => simp at h
  | case2 store q qs ih =>
    rw [persistAll]
    rw [← List.take_append_drop 10 (q :: qs)] at h
    rcases List.mem_append.mp h with htk | hdr
    · obtain ⟨r, hr, h1, h2, h3, h4⟩ := appendRows_mem_of_mem _ store t htk
      exact ⟨r, persistAll_mem_mono _ _ _ hr, h1, h2, h3, h4⟩
    · obtain ⟨r, hr, h1, h2, h3, h4⟩ := ih hdr
      exact ⟨r, hr, h1, h2, h3, le_trans (appendRows_nextId_le _ _) h4⟩

theorem test_responses_getD_mem : ∀ k, k < 10 → test_responses.getD k "" ∈ test_responses := by
  decide

theorem Inv_init : Inv World.init := by
  constructor <;> intro uid <;> simp [openRegistered, World.init]

theorem filter_update_of_not_mem (f : Nat → Bool) (ws : Nat) (b : Bool) (l : List Nat)
    (h : ws ∉ l) : l.filter (Function.update f ws b) = l.filter f := by
  apply List.filter_congr
  intro r hr
  have hne : r ≠ ws := by
    rintro rfl
    exact h hr
  rw [Function.update_noteq hne b f]

theorem pruned_of_fresh (w : World) (ws uid : Nat) (h : ws ∉ w.conns uid) :
    pruned w ws uid = ws :: (w.conns uid).filter (Function.update w.alive ws true) := by
  rw [pruned, List.insert_of_not_mem h,
    List.filter_cons_of_pos (by rw [Function.update_same])]

theorem Inv_connect (w : World) (ws uid : Nat) (hfresh : ∀ u, ws ∉ w.conns u)
    (hI : Inv w) : Inv (connectOp w ws uid).1 := by
  obtain ⟨hcap, haux⟩ := hI
  have key_aux : ∀ u s, s ∈ (Function.update w.conns uid (pruned w ws uid)) u →
      s ≠ ws → w.isOpen s = true → Function.update w.alive ws true s = true := by
    intro u s hmem hs hopen
    by_cases hu : u = uid
    · rw [hu, Function.update_same, pruned] at hmem
      exact List.of_mem_filter hmem
    · rw [Function.update_noteq hu _ _] at hmem
      rw [Function.update_noteq hs _ _]
      exact haux u s hmem hopen
  rw [connectOp]
  split
  case isTrue hlen =>
    dsimp only
    refine ⟨?_, ?_⟩
    · intro u
      simp only [openRegistered]
      by_cases hu : u = uid
      · rw [hu, Function.update_same, Function.update_idem,
          pruned_of_fresh w ws uid (hfresh uid),
          List.filter_cons_of_neg (by simp [Function.update_same]),
          filter_update_of_not_mem _ _ _ _
            (fun hmem => hfresh uid (List.mem_of_mem_filter hmem))]
        exact le_trans ((List.filter_sublist _).filter _).length_le (hcap uid)
      · rw [Function.update_noteq hu _ _, Function.update_idem,
          filter_update_of_not_mem _ _ _ _ (hfresh u)]
        exact hcap u
    · intro u s hmem hopen
      have hmem2 : s ∈ Function.update w.conns uid (pruned w ws uid) u := hmem
      have hopen1 : Function.update (Function.update w.isOpen ws true) ws false s = true := hopen
      show Function.update w.alive ws true s = true
      by_cases hs : s = ws
      · rw [hs, Function.update_same]
      · have hopen2 : w.isOpen s = true := by
          rwa [Function.update_idem, Function.update_noteq hs _ _] at hopen1
        exact key_aux u s hmem2 hs hopen2
  case isFalse hlen =>
    dsimp only
    refine ⟨?_, ?_⟩
    · intro u
      simp only [openRegistered]
      by_cases hu : u = uid
      · rw [hu, Function.update_same]
        exact le_trans (List.length_filter_le _ _) (Nat.not_lt.mp hlen)
      · rw [Function.update_noteq hu _ _,
          filter_update_of_not_mem _ _ _ _ (hfresh u)]
        exact hcap u
    · intro u s hmem hopen
      have hmem2 : s ∈ Function.update w.conns uid (pruned w ws uid) u := hmem
      have hopen1 : Function.update w.isOpen ws true s = true := hopen
      show Function.update w.alive ws true s = true
      by_cases hs : s = ws
      · rw [hs, Function.update_same]
      · have hopen2 : w.isOpen s = true := by
          rwa [Function.update_noteq hs _ _] at hopen1
        exact key_aux u s hmem2 hs hopen2

theorem Inv_disconnect (w : World) (ws uid : Nat) (hI : Inv w) :
    Inv (disconnectOp w ws uid) := by
  obtain ⟨hcap, haux⟩ := hI
  refine ⟨?_, ?_⟩
  · intro u
    simp only [openRegistered, disconnectOp]
    by_cases hu : u = uid
    · rw [hu, Function.update_same]
      exact le_trans ((List.filter_sublist _).filter _).length_le (hcap uid)
    · rw [Function.update_noteq hu _ _]
      exact hcap u
  · intro u s hmem hopen
    have hopen1 : w.isOpen s = true := hopen
    show w.alive s = true
    have hmem2 : s ∈ Function.update w.conns uid
        ((w.conns uid).filter (fun r => !(r == ws && w.alive r))) u := hmem
    by_cases hu : u = uid
    · rw [hu, Function.update_same] at hmem2
      exact haux uid s (List.mem_of_mem_filter hmem2) hopen1
    · rw [Function.update_noteq hu _ _] at hmem2
      exact haux u s hmem2 hopen1

theorem Inv_close (w : World) (ws : Nat) (hI : Inv w) : Inv (closeWs w ws) := by
  obtain ⟨hcap, haux⟩ := hI
  refine ⟨?_, ?_⟩
  · intro u
    simp only [openRegistered, closeWs]
    refine le_trans (List.Sublist.length_le ?_) (hcap u)
    apply List.monotone_filter_right
    intro a ha
    by_cases hsa : a = ws
    · rw [hsa, Function.update_same] at ha
      exact absurd ha (by simp)
    · rwa [Function.update_noteq hsa _ _] at ha
  · intro u s hmem hopen
    have hmem2 : s ∈ w.conns u := hmem
    have hopen1 : Function.update w.isOpen ws false s = true := hopen
    show w.alive s = true
    by_cases hs : s = ws
    · rw [hs, Function.update_same] at hopen1
      exact absurd hopen1 (by simp)
    · rw [Function.update_noteq hs _ _] at hopen1
      exact haux u s hmem2 hopen1

theorem Inv_gc (w : World) (ws : Nat) (hdead : w.isOpen ws = false) (hI : Inv w) :
    Inv (gcWs w ws) := by
  obtain ⟨hcap, haux⟩ := hI
  refine ⟨fun u => hcap u, ?_⟩
  intro u s hmem hopen
  have hmem2 : s ∈ w.conns u := hmem
  have hopen1 : w.isOpen s = true := hopen
  show Function.update w.alive ws false s = true
  by_cases hs : s = ws
  · rw [hs] at hopen1
    rw [hopen1] at hdead
    exact absurd hdead (by simp)
  · rw [Function.update_noteq hs _ _]
    exact haux u s hmem2 hopen1

theorem Inv_reachable (w : World) (h : Reachable w) : Inv w := by
  induction h with
  | refl => exact Inv_init
  | tail hsteps hstep ih =>
    cases hstep with
    | connect ws uid hfresh => exact Inv_connect _ ws uid hfresh ih
    | disconnect ws uid => exact Inv_disconnect _ ws uid ih
    | closeTransport ws => exact Inv_close _ ws ih
    | gcCollect ws hdead => exact Inv_gc _ ws hdead ih

theorem connectOp_conns (w : World) (ws uid : Nat) :
    (connectOp w ws uid).1.conns = Function.update w.conns uid (pruned w ws uid) := by
  rw [connectOp]
  split <;> rfl

theorem eligible_user_id (uid : Nat) (bid : Option Int) (m : StoredMsg)
    (h : eligible uid bid m = true) : m.user_id = uid := by
  simp only [eligible, Bool.and_eq_true, beq_iff_eq] at h
  exact h.1

theorem eligible_bound (uid : Nat) (b : Int) (m : StoredMsg) (hb : b ≠ 0)
    (h : eligible uid (some b) m = true) : (m.id : Int) < b := by
  simp only [eligible, Bool.and_eq_true] at h
  have h2 := h.2
  have hb0 : (b == 0) = false := by
    simpa using hb
  simp only [hb0, Bool.false_or, decide_eq_true_eq] at h2
  exact h2

theorem getMessages_eq (store : Storage) (uid : Nat) (before_id : Option Int) (limit : Nat) :
    getMessages store uid before_id limit =
      (((store.rows.filter (eligible uid before_id)).insertionSort msgGE).take limit).reverse := by
  cases before_id with
  | none =>
    have he : eligible uid none = fun m : StoredMsg => m.user_id == uid := by
      funext m
      simp [eligible]
    rw [he]
    rfl
  | some b =>
    by_cases hb : b = 0
    · have he : eligible uid (some b) = fun m : StoredMsg => m.user_id == uid := by
        funext m
        simp [eligible, hb]
      rw [he, hb]
      rfl
    · have he : eligible uid (some b) = fun m : StoredMsg =>
          decide ((m.id : Int) < b) && (m.user_id == uid) := by
        funext m
        have hb0 : (b == 0) = false := by
          simpa using hb
        simp [eligible, hb0, Bool.and_comm]
      rw [he]
      simp only [getMessages, List.filter_filter]
      rw [if_neg hb]


/-! Claim theorems. -/

set_option maxRecDepth 8000 in
/-- C1 (counterexample).  The claim says the 101st `add_message` call
for a user is rejected once 100 of that user's messages were accepted in
the window.  In the code the guard is `self.rate_limits[task.user_id] >
100`, so after 100 accepted messages the counter is 100, `100 > 100` is
false, and the 101st call is accepted (and enqueued): here, after 100
accepted calls from user 1 the counter is exactly 100 and the next call
still returns `True`. -/
theorem rate_limit_101st_accepted_cex :
    (acceptRun 100).rate_limits 1 = 100 ∧
    (addMessage (acceptRun 100) ⟨1, "x", 0, 0⟩ 0).1 = true := by
  constructor <;> decide

/-- C1 (amended).  Once 101 of a user's messages have been accepted
within the current rate window (the counter saturates at 101), the next
(102nd) `add_message` call for that user returns `False` and leaves the
processor state, in particular the queue, unchanged. -/
theorem rate_limit_saturated_rejects (s : ProcState) (t : MessageTask) (now : Nat)
    (hwin : now - s.last_cleanup ≤ 60) (hcnt : 100 < s.rate_limits t.user_id) :
    addMessage s t now = (false, s) := by
  have hw : windowStep s now = s := by
    simp [windowStep, Nat.not_lt.mpr hwin]
  simp [addMessage, hw, hcnt]

set_option maxRecDepth 8000 in
/-- Witness for C1: after 101 accepted calls from user 1, the 102nd call
is rejected and changes nothing. -/
theorem rate_limit_saturated_rejects_witness :
    addMessage (acceptRun 101) ⟨1, "y", 0, 0⟩ 0 = (false, acceptRun 101) :=
  rate_limit_saturated_rejects (acceptRun 101) ⟨1, "y", 0, 0⟩ 0 (by decide) (by decide)

/-- C2.  In every reachable registry state each user has at most 5 open
registered sessions; a connect attempt whose post-prune live reference
count exceeds 5 closes the just-added session with code 1008, returns
`False`, and evicts no existing live session; otherwise connect returns
`True` with no close. -/
theorem connection_cap (w : World) (hreach : Reachable w) :
    (∀ uid, ((w.conns uid).filter w.isOpen).length ≤ 5) ∧
    (∀ ws uid,
      (5 < (pruned w ws uid).length →
        (connectOp w ws uid).2.1 = false ∧
        (connectOp w ws uid).2.2 = some 1008 ∧
        (connectOp w ws uid).1.isOpen ws = false ∧
        ∀ s ∈ w.conns uid, w.alive s = true → s ∈ (connectOp w ws uid).1.conns uid) ∧
      (¬ 5 < (pruned w ws uid).length →
        (connectOp w ws uid).2.1 = true ∧ (connectOp w ws uid).2.2 = none)) := by
  refine ⟨fun uid => (Inv_reachable w hreach).1 uid, ?_⟩
  intro ws uid
  constructor
  · intro hlen
    rw [connectOp, if_pos hlen]
    refine ⟨rfl, rfl, ?_, ?_⟩
    · show Function.update (Function.update w.isOpen ws true) ws false ws = false
      rw [Function.update_same]
    · intro s hs hal
      show s ∈ Function.update w.conns uid (pruned w ws uid) uid
      rw [Function.update_same, pruned]
      refine List.mem_filter.mpr ⟨List.mem_insert_of_mem hs, ?_⟩
      by_cases h : s = ws
      · rw [h, Function.update_same]
      · rw [Function.update_noteq h _ _]
        exact hal
  · intro hlen
    rw [connectOp, if_neg hlen]
    exact ⟨rfl, rfl⟩

/-- Witness for C2 at the initial registry state. -/
theorem connection_cap_witness :
    ((World.init.conns 1).filter World.init.isOpen).length ≤ 5 :=
  (connection_cap World.init Relation.ReflTransGen.refl).1 1

/-- C3 (counterexample).  The claim says the reset fires when at least
one minute has elapsed (boundary inclusive).  The code tests
`now - self.last_cleanup > timedelta(minutes=1)` strictly, so at exactly
60 seconds elapsed no counter is cleared: user 2's counter stays at 5
instead of being cleared to 0. -/
theorem window_boundary_cex :
    (addMessage ⟨[], fun _ => 5, 0⟩ ⟨1, "x", 60, 0⟩ 60).2.rate_limits 2 = 5 ∧
    (5 : Nat) ≠ 0 := by
  constructor <;> decide

/-- C3 (amended).  On every `add_message` call, if strictly more than
one minute has elapsed since the window start, the counters of all users
other than the caller are cleared to zero and the window start is reset
to `now` (the caller's counter then records its accepted message); if at
most one minute has elapsed, no other user's counter changes and the
window start is kept. -/
theorem window_reset_behavior (s : ProcState) (t : MessageTask) (now : Nat) :
    (60 < now - s.last_cleanup →
      (addMessage s t now).2.last_cleanup = now ∧
      ∀ u, u ≠ t.user_id → (addMessage s t now).2.rate_limits u = 0) ∧
    (now - s.last_cleanup ≤ 60 →
      (addMessage s t now).2.last_cleanup = s.last_cleanup ∧
      ∀ u, u ≠ t.user_id → (addMessage s t now).2.rate_limits u = s.rate_limits u) := by
  constructor
  · intro h
    simp [addMessage, windowStep, h, Function.update]
  · intro h
    have hw : windowStep s now = s := by
      simp [windowStep, Nat.not_lt.mpr h]
    simp [addMessage, hw]
    split <;> simp [Function.update]
    intro u hu
    simp [hu]

/-- Witness for C3: at 100 seconds elapsed user 2's counter is cleared;
at 30 seconds elapsed it is kept. -/
theorem window_reset_behavior_witness :
    ((addMessage ⟨[], fun _ => 5, 0⟩ ⟨1, "x", 100, 0⟩ 100).2.rate_limits 2 = 0) ∧
    ((addMessage ⟨[], fun _ => 5, 0⟩ ⟨1, "x", 30, 0⟩ 30).2.rate_limits 2 = (5 : Nat)) :=
  ⟨((window_reset_behavior ⟨[], fun _ => 5, 0⟩ ⟨1, "x", 100, 0⟩ 100).1 (by decide)).2 2 (by decide),
   ((window_reset_behavior ⟨[], fun _ => 5, 0⟩ ⟨1, "x", 30, 0⟩ 30).2 (by decide)).2 2 (by decide)⟩

set_option maxRecDepth 8000 in
/-- C4 (counterexample).  The claim says content over 500 characters is
rejected before admission.  `add_message` performs no length check: a
501-character message on a fresh processor is accepted and enqueued. -/
theorem oversize_accepted_cex :
    500 < longContent.length ∧
    (addMessage (ProcState.init 0) ⟨1, longContent, 0, 0⟩ 0).1 = true ∧
    (addMessage (ProcState.init 0) ⟨1, longContent, 0, 0⟩ 0).2.queue =
      [⟨1, longContent, 0, 0⟩] := by
  refine ⟨by decide, by decide, by decide⟩

/-- C4 (amended).  The gateway's admission decision ignores the content
entirely (oversized content passes admission exactly like any other);
the 500-character limit exists only at the storage column, where a write
containing an oversized record is rejected as a whole — nothing is
stored, and an accepted write stores every record's content verbatim,
never truncated. -/
theorem oversize_behavior :
    (∀ (s : ProcState) (u : Nat) (c c' : String) (ts ts' ws ws' now : Nat),
      (addMessage s ⟨u, c, ts, ws⟩ now).1 = (addMessage s ⟨u, c', ts', ws'⟩ now).1) ∧
    (∀ (store : Storage) (recs : List StoredMsg) (r : StoredMsg),
      r ∈ recs → 500 < r.content.length → storageAppend store recs = none) ∧
    (∀ (store : Storage) (recs : List StoredMsg) (s' : Storage),
      storageAppend store recs = some s' → s'.rows = store.rows ++ recs) := by
  refine ⟨?_, ?_, ?_⟩
  · intro s u c c' ts ts' ws ws' now
    by_cases h : 100 < (windowStep s now).rate_limits u <;> simp [addMessage, h]
  · intro store recs r hr hlen
    rw [storageAppend, if_neg]
    simp only [List.all_eq_true, not_forall]
    exact ⟨r, hr, by simp; omega⟩
  · intro store recs s' h
    rw [storageAppend] at h
    split at h
    · injection h with h2
      rw [← h2]
    · exact absurd h (by simp)

set_option maxRecDepth 8000 in
/-- Witness for C4: admission is content-blind on a fresh processor; an
oversized record makes the storage write fail; an accepted write keeps
content verbatim. -/
theorem oversize_behavior_witness :
    (addMessage (ProcState.init 0) ⟨1, "a", 0, 0⟩ 0).1 =
      (addMessage (ProcState.init 0) ⟨1, "bb", 1, 2⟩ 0).1 ∧
    storageAppend ⟨0, []⟩ [⟨1, 1, longContent, true, 0⟩] = none ∧
    (storageAppend ⟨0, []⟩ [⟨1, 1, "ok", true, 0⟩] = some ⟨0, [⟨1, 1, "ok", true, 0⟩]⟩ →
      (⟨0, [⟨1, 1, "ok", true, 0⟩]⟩ : Storage).rows =
        ([] : List StoredMsg) ++ [⟨1, 1, "ok", true, 0⟩]) :=
  ⟨oversize_behavior.1 (ProcState.init 0) 1 "a" "bb" 0 1 0 2 0,
   oversize_behavior.2.1 ⟨0, []⟩ [⟨1, 1, longContent, true, 0⟩] ⟨1, 1, longContent, true, 0⟩
     (by simp) (by decide),
   fun h => oversize_behavior.2.2 ⟨0, []⟩ [⟨1, 1, "ok", true, 0⟩] _ h⟩

/-- C5.  When the gateway accepts an inbound message, exactly two frames
go back to the originating session, user message first: a frame with
`is_from_user=true` and the received content, then a frame with
`is_from_user=false` and one of the canned replies; both carry
storage-assigned ids (both rows are in storage) and the reply's id is
strictly greater than the user message's. -/
theorem round_trip_frames (proc : ProcState) (store : Storage) (uid : Nat) (data : String)
    (now ws rnd : Nat)
    (hacc : (addMessage proc ⟨uid, data, now, ws⟩ now).1 = true) :
    ∃ u a : StoredMsg,
      (receiveStep proc store uid data now ws rnd).frames = [OutFrame.msg u, OutFrame.msg a] ∧
      u.is_from_user = true ∧ u.content = data ∧ u.user_id = uid ∧
      a.is_from_user = false ∧ a.content ∈ test_responses ∧ a.user_id = uid ∧
      u.id = store.nextId ∧ a.id = store.nextId + 1 ∧ u.id < a.id ∧
      u ∈ (receiveStep proc store uid data now ws rnd).store.rows ∧
      a ∈ (receiveStep proc store uid data now ws rnd).store.rows := by
  refine ⟨⟨store.nextId, uid, data, true, now⟩,
    ⟨store.nextId + 1, uid, test_responses.getD (rnd % 10) "", false, now⟩,
    by simp [receiveStep, hacc], rfl, rfl, rfl, rfl,
    test_responses_getD_mem _ (Nat.mod_lt _ (by decide)), rfl, rfl, rfl,
    Nat.lt_succ_self _, by simp [receiveStep, hacc], by simp [receiveStep, hacc]⟩

/-- Witness for C5 on a fresh processor and storage, message "hello"
from user 1. -/
theorem round_trip_frames_witness :
    ∃ u a : StoredMsg,
      (receiveStep (ProcState.init 0) ⟨1, []⟩ 1 "hello" 0 0 0).frames =
        [OutFrame.msg u, OutFrame.msg a] ∧
      u.is_from_user = true ∧ u.content = "hello" ∧ u.user_id = 1 ∧
      a.is_from_user = false ∧ a.content ∈ test_responses ∧ a.user_id = 1 ∧
      u.id = (⟨1, []⟩ : Storage).nextId ∧ a.id = (⟨1, []⟩ : Storage).nextId + 1 ∧
      u.id < a.id ∧
      u ∈ (receiveStep (ProcState.init 0) ⟨1, []⟩ 1 "hello" 0 0 0).store.rows ∧
      a ∈ (receiveStep (ProcState.init 0) ⟨1, []⟩ 1 "hello" 0 0 0).store.rows :=
  round_trip_frames (ProcState.init 0) ⟨1, []⟩ 1 "hello" 0 0 0 (by decide)

/-- C6.  An accepted inbound message is persisted twice: the synchronous
write on the dispatch path stores one row, and draining the queue makes
the batch persister store a second, distinct row; both rows carry the
sender's user id, the received content, and `is_from_user=true`. -/
theorem dual_persistence (proc : ProcState) (store : Storage) (uid : Nat) (data : String)
    (now ws rnd : Nat)
    (hacc : (addMessage proc ⟨uid, data, now, ws⟩ now).1 = true) :
    ∃ r1 r2 : StoredMsg,
      r1 ∈ (persistAll (receiveStep proc store uid data now ws rnd).store
              (receiveStep proc store uid data now ws rnd).proc.queue).rows ∧
      r2 ∈ (persistAll (receiveStep proc store uid data now ws rnd).store
              (receiveStep proc store uid data now ws rnd).proc.queue).rows ∧
      r1 ≠ r2 ∧
      r1.user_id = uid ∧ r1.content = data ∧ r1.is_from_user = true ∧
      r2.user_id = uid ∧ r2.content = data ∧ r2.is_from_user = true := by
  have hqueue : (receiveStep proc store uid data now ws rnd).proc.queue
      = proc.queue ++ [⟨uid, data, now, ws⟩] := by
    simp only [receiveStep, hacc]
    simp [addMessage_queue_accept _ _ _ hacc]
  have hstore : (receiveStep proc store uid data now ws rnd).store
      = ⟨store.nextId + 2, store.rows ++ [⟨store.nextId, uid, data, true, now⟩,
          ⟨store.nextId + 1, uid, test_responses.getD (rnd % 10) "", false, now⟩]⟩ := by
    simp [receiveStep, hacc]
  obtain ⟨r2, hr2, h1, h2, h3, h4⟩ :=
    persistAll_mem_of_mem (receiveStep proc store uid data now ws rnd).proc.queue
      (receiveStep proc store uid data now ws rnd).store ⟨uid, data, now, ws⟩
      (by rw [hqueue]; simp)
  refine ⟨⟨store.nextId, uid, data, true, now⟩, r2, ?_, hr2, ?_, rfl, rfl, rfl, h1, h2, h3⟩
  · exact persistAll_mem_mono _ _ _ (by rw [hstore]; simp)
  · intro hne
    rw [hstore] at h4
    simp at h4
    have : (⟨store.nextId, uid, data, true, now⟩ : StoredMsg).id = r2.id := by
      rw [hne]
    simp at this
    omega

/-- Witness for C6 on a fresh processor and storage. -/
theorem dual_persistence_witness :
    ∃ r1 r2 : StoredMsg,
      r1 ∈ (persistAll (receiveStep (ProcState.init 0) ⟨1, []⟩ 1 "hello" 0 0 0).store
              (receiveStep (ProcState.init 0) ⟨1, []⟩ 1 "hello" 0 0 0).proc.queue).rows ∧
      r2 ∈ (persistAll (receiveStep (ProcState.init 0) ⟨1, []⟩ 1 "hello" 0 0 0).store
              (receiveStep (ProcState.init 0) ⟨1, []⟩ 1 "hello" 0 0 0).proc.queue).rows ∧
      r1 ≠ r2 ∧
      r1.user_id = 1 ∧ r1.content = "hello" ∧ r1.is_from_user = true ∧
      r2.user_id = 1 ∧ r2.content = "hello" ∧ r2.is_from_user = true :=
  dual_persistence (ProcState.init 0) ⟨1, []⟩ 1 "hello" 0 0 0 (by decide)

/-- C7.  Each batch-persister cycle drains at most 10 tasks without
suspending; a non-empty drain issues exactly one multi-record write
covering all drained tasks and does not sleep; an empty drain issues no
write and sleeps for the fixed delay. -/
theorem batch_persister_cycle (store : Storage) (queue : List MessageTask) :
    (queue.take 10).length ≤ 10 ∧
    (queue ≠ [] →
      persistCycle store queue =
        ⟨appendRows store (queue.take 10), queue.drop 10, [queue.take 10], false⟩) ∧
    (queue = [] → persistCycle store queue = ⟨store, queue, [], true⟩) := by
  refine ⟨by simp [List.length_take_le], ?_, ?_⟩
  · intro h
    simp [persistCycle, h]
  · intro h
    simp [persistCycle, h]

/-- Witness for C7: a one-task queue is drained and written in one
batch; an empty queue sleeps with no write. -/
theorem batch_persister_cycle_witness :
    (([⟨1, "a", 0, 0⟩] : List MessageTask).take 10).length ≤ 10 ∧
    persistCycle ⟨0, []⟩ [⟨1, "a", 0, 0⟩] =
      ⟨appendRows ⟨0, []⟩ (([⟨1, "a", 0, 0⟩] : List MessageTask).take 10),
        (([⟨1, "a", 0, 0⟩] : List MessageTask).drop 10),
        [(([⟨1, "a", 0, 0⟩] : List MessageTask).take 10)], false⟩ ∧
    persistCycle ⟨0, []⟩ ([] : List MessageTask) = ⟨⟨0, []⟩, [], [], true⟩ :=
  ⟨(batch_persister_cycle ⟨0, []⟩ [⟨1, "a", 0, 0⟩]).1,
   (batch_persister_cycle ⟨0, []⟩ [⟨1, "a", 0, 0⟩]).2.1 (by simp),
   (batch_persister_cycle ⟨0, []⟩ ([] : List MessageTask)).2.2 rfl⟩

/-- C8.  A rate-limited message produces exactly the frame
`{"error": "Rate limit exceeded"}` on the originating session, the
receive loop continues (the session is not closed), storage is
untouched, and the queue is unchanged (the message is neither enqueued
nor persisted). -/
theorem rate_limit_rejection_frame (proc : ProcState) (store : Storage) (uid : Nat)
    (data : String) (now ws rnd : Nat)
    (hrej : (addMessage proc ⟨uid, data, now, ws⟩ now).1 = false) :
    (receiveStep proc store uid data now ws rnd).frames = [OutFrame.err "Rate limit exceeded"] ∧
    (receiveStep proc store uid data now ws rnd).continueLoop = true ∧
    (receiveStep proc store uid data now ws rnd).store = store ∧
    (receiveStep proc store uid data now ws rnd).proc.queue = proc.queue := by
  refine ⟨by simp [receiveStep, hrej], by simp [receiveStep, hrej],
    by simp [receiveStep, hrej], ?_⟩
  simp only [receiveStep, hrej]
  simpa using addMessage_queue_reject _ _ _ hrej

/-- Witness for C8 on a processor whose counter for user 1 is saturated. -/
theorem rate_limit_rejection_frame_witness :
    (receiveStep ⟨[], fun _ => 101, 0⟩ ⟨1, []⟩ 1 "hi" 0 0 0).frames =
      [OutFrame.err "Rate limit exceeded"] ∧
    (receiveStep ⟨[], fun _ => 101, 0⟩ ⟨1, []⟩ 1 "hi" 0 0 0).continueLoop = true ∧
    (receiveStep ⟨[], fun _ => 101, 0⟩ ⟨1, []⟩ 1 "hi" 0 0 0).store = ⟨1, []⟩ ∧
    (receiveStep ⟨[], fun _ => 101, 0⟩ ⟨1, []⟩ 1 "hi" 0 0 0).proc.queue =
      (⟨[], fun _ => 101, 0⟩ : ProcState).queue :=
  rate_limit_rejection_frame ⟨[], fun _ => 101, 0⟩ ⟨1, []⟩ 1 "hi" 0 0 0 (by decide)

/-- C9 (counterexample).  The claim says a supplied `before_id` bound
always restricts results to ids strictly below it.  Python's
`if before_id:` treats the supplied bound 0 as absent, so with one
stored message of id 1 for user 7 the query with `before_id=0` returns
that message although its id is not below 0. -/
theorem get_messages_before_zero_cex :
    getMessages ⟨2, [⟨1, 7, "hi", true, 0⟩]⟩ 7 (some 0) 50 = [⟨1, 7, "hi", true, 0⟩] ∧
    ¬((1 : Int) < 0) := by
  constructor
  · rfl
  · decide

/-- C9 (amended).  For every limit not exceeding 100, the history query
returns at most `limit` messages, all stored rows of the requested user,
restricted to ids strictly below `before_id` when a nonzero bound is
supplied (a supplied bound of 0 is ignored, behaving as no bound),
selected as the most recent by id among the eligible rows, and returned
oldest-first (ascending id). -/
theorem get_messages_spec (store : Storage) (uid : Nat) (before_id : Option Int) (limit : Nat)
    (hlim : limit ≤ 100) :
    (getMessages store uid before_id limit).length ≤ limit ∧
    (∀ m ∈ getMessages store uid before_id limit, m ∈ store.rows ∧ m.user_id = uid) ∧
    (∀ b : Int, before_id = some b → b ≠ 0 →
      ∀ m ∈ getMessages store uid before_id limit, (m.id : Int) < b) ∧
    List.Sorted (fun a b : StoredMsg => a.id ≤ b.id) (getMessages store uid before_id limit) ∧
    (∀ m ∈ store.rows, eligible uid before_id m = true →
      m ∉ getMessages store uid before_id limit →
      ∀ x ∈ getMessages store uid before_id limit, m.id ≤ x.id) ∧
    getMessages store uid (some 0) limit = getMessages store uid none limit := by
  rw [getMessages_eq]
  set q := store.rows.filter (eligible uid before_id) with hq
  set srt := q.insertionSort msgGE with hsrt
  have hsorted : List.Sorted msgGE srt := List.sorted_insertionSort msgGE q
  have hperm : List.Perm srt q := List.perm_insertionSort msgGE q
  have hmem_srt : ∀ m, m ∈ srt ↔ m ∈ q := fun m => hperm.mem_iff
  refine ⟨?_, ?_, ?_, ?_, ?_, ?_⟩
  · rw [List.length_reverse, List.length_take]
    exact min_le_left _ _
  · intro m hm
    rw [List.mem_reverse] at hm
    have hmq : m ∈ q := (hmem_srt m).mp (List.mem_of_mem_take hm)
    rw [hq] at hmq
    exact ⟨List.mem_of_mem_filter hmq, eligible_user_id uid before_id m (List.of_mem_filter hmq)⟩
  · intro b hb hb0 m hm
    rw [List.mem_reverse] at hm
    have hmq : m ∈ q := (hmem_srt m).mp (List.mem_of_mem_take hm)
    rw [hq] at hmq
    have hel := List.of_mem_filter hmq
    rw [hb] at hel
    exact eligible_bound uid b m hb0 hel
  · have htake : List.Pairwise msgGE (srt.take limit) :=
      hsorted.sublist (List.take_sublist _ _)
    exact List.pairwise_reverse.mpr htake
  · intro m hmrows hel hnot x hx
    have hmq : m ∈ srt := (hmem_srt m).mpr (by rw [hq]; exact List.mem_filter.mpr ⟨hmrows, hel⟩)
    rw [List.mem_reverse] at hx
    have hnot2 : m ∉ srt.take limit := fun hc => hnot (List.mem_reverse.mpr hc)
    have hsplit : srt.take limit ++ srt.drop limit = srt := List.take_append_drop limit srt
    have hpair : List.Pairwise msgGE (srt.take limit ++ srt.drop limit) := by
      rw [hsplit]
      exact hsorted
    have hcross := (List.pairwise_append.mp hpair).2.2
    have hmdrop : m ∈ srt.drop limit := by
      rcases List.mem_append.mp (by rw [hsplit]; exact hmq : m ∈ srt.take limit ++ srt.drop limit) with h | h
      · exact absurd h hnot2
      · exact h
    exact hcross x hx m hmdrop
  · simp [getMessages]

/-- Witness for C9 on a one-row store, no bound, limit 50. -/
theorem get_messages_spec_witness :
    (getMessages ⟨2, [⟨1, 7, "hi", true, 0⟩]⟩ 7 none 50).length ≤ 50 :=
  (get_messages_spec ⟨2, [⟨1, 7, "hi", true, 0⟩]⟩ 7 none 50 (by decide)).1

/-- C10.  When a fresh session connects under the cap for a `user_id`
that matches no user, the session has already been accepted and
registered by `manager.connect`; the endpoint then closes it with code
1008 and returns without calling `disconnect`, so the closed session's
reference stays registered under the user (the registry is exactly what
`connect` left); a later connect for the same user, after the dead
session has been collected, prunes it out. -/
theorem unknown_user_registry_leak (w : World) (ws uid ws2 : Nat)
    (hok : (connectOp w ws uid).2.1 = true) (hne : ws2 ≠ ws) :
    (endpointConnectPhase w ws uid false).2.2 = some 1008 ∧
    (endpointConnectPhase w ws uid false).2.1 = false ∧
    ws ∈ (endpointConnectPhase w ws uid false).1.conns uid ∧
    (endpointConnectPhase w ws uid false).1.isOpen ws = false ∧
    (endpointConnectPhase w ws uid false).1.conns = (connectOp w ws uid).1.conns ∧
    ws ∉ (connectOp (gcWs (endpointConnectPhase w ws uid false).1 ws) ws2 uid).1.conns uid := by
  have hepc : endpointConnectPhase w ws uid false =
      (closeWs (connectOp w ws uid).1 ws, false, some 1008) := by
    rw [endpointConnectPhase]
    simp [hok]
  refine ⟨by rw [hepc], by rw [hepc], ?_, ?_, by rw [hepc]; rfl, ?_⟩
  · rw [hepc]
    show ws ∈ (connectOp w ws uid).1.conns uid
    rw [connectOp_conns, Function.update_same, pruned]
    exact List.mem_filter.mpr ⟨List.mem_insert_self _ _, by rw [Function.update_same]⟩
  · rw [hepc]
    show Function.update (connectOp w ws uid).1.isOpen ws false ws = false
    rw [Function.update_same]
  · rw [hepc]
    rw [connectOp_conns, Function.update_same]
    intro hmem
    rw [pruned] at hmem
    have h2 := List.of_mem_filter hmem
    rw [Function.update_noteq (Ne.symm hne) _ _] at h2
    have h3 : Function.update (closeWs (connectOp w ws uid).1 ws).alive ws false ws = true := h2
    rw [Function.update_same] at h3
    exact absurd h3 (by simp)

/-- Witness for C10: session 1 connects for unknown user 7 on a fresh
registry, is closed but stays registered; after collection, session 2's
connect prunes it. -/
theorem unknown_user_registry_leak_witness :
    (endpointConnectPhase World.init 1 7 false).2.2 = some 1008 ∧
    (endpointConnectPhase World.init 1 7 false).2.1 = false ∧
    1 ∈ (endpointConnectPhase World.init 1 7 false).1.conns 7 ∧
    (endpointConnectPhase World.init 1 7 false).1.isOpen 1 = false ∧
    (endpointConnectPhase World.init 1 7 false).1.conns = (connectOp World.init 1 7).1.conns ∧
    1 ∉ (connectOp (gcWs (endpointConnectPhase World.init 1 7 false).1 1) 2 7).1.conns 7 :=
  unknown_user_registry_leak World.init 1 7 2 (by decide) (by decide)

end Backend
